import Mathlib

/-!
Verification of the gerrit-mcp repository's request-layer specification.

The definitions below are shallow embeddings of the Python source:
* the diff reconstruction loop of `server_direct.py` (`get_file_diff`,
  the "Revised Diff Parsing Logic", lines 593-635) and the older duplicate
  in `src/gerrit/api.py` (`get_file_diff`, lines 417-452);
* the URL normalization section of `make_gerrit_request`
  (`src/gerrit/api.py`, lines 113-185);
* the response classification of `make_gerrit_request` (lines 208-218)
  together with `parse_gerrit_response` (lines 33-56);
* the request-body construction of `create_draft_comment`
  (lines 484-507) and its façade `create_draft_comment_tool`
  (`src/mmcp/tools/review_tools.py`, lines 15-62);
* the `get_commit_info` pipeline (api.py lines 273-290, commit_tools.py
  lines 15-35) and the `get_file_list` post-processing (lines 353-379).

Python strings are modelled as `List Char` (`PyStr`); Python dicts whose
keys matter are modelled either as structures (fixed key sets) or as
association lists in insertion order with unique keys.
-/

namespace GerritMCP

/-- Python strings, modelled as lists of characters. -/
abbrev PyStr := List Char

/-- Coerce a Lean string literal to the `PyStr` model. -/
def str (s : String) : PyStr := s.data

/-! ## Diff reconstruction (`server_direct.py`, `get_file_diff`, lines 593-635)

The Gerrit diff body is a list of content blocks; each block carries exactly
one of the keys `ab` (common lines), `a` (removed lines), `b` (added lines)
or `skip` (a count).  The Python code walks the blocks with two counters
`line_num_a` (old file) and `line_num_b` (new file), both starting at 0,
and appends one record per line to `line_changes`. -/

/-- One content block of a Gerrit diff response, tagged by which of the
keys `ab` / `a` / `b` / `skip` it carries. -/
inductive DiffSegment where
  | common (lines : List String)
  | removed (lines : List String)
  | added (lines : List String)
  | skip (count : Nat)
deriving DecidableEq, Repr

/-- The `type` field of an emitted line-change record. -/
inductive LineType where
  | common
  | added
  | removed
deriving DecidableEq, Repr

/-- One record of the reconstructed diff:
`{'line_number': ..., 'content': ..., 'type': ...}`. -/
structure LineChange where
  type : LineType
  line_number : Nat
  content : String
deriving DecidableEq, Repr

/-- The loop state of the reconstruction: the two counters and the output
list, named after the Python locals. -/
structure DiffState where
  line_num_a : Nat
  line_num_b : Nat
  line_changes : List LineChange
deriving DecidableEq, Repr

/-- Body of `for text in lines` in the `'ab'` branch: both counters are
incremented, then a `common` record with the new-file number is appended. -/
def stepCommon (s : DiffState) (text : String) : DiffState :=
  { line_num_a := s.line_num_a + 1
    line_num_b := s.line_num_b + 1
    line_changes := s.line_changes ++ [⟨.common, s.line_num_b + 1, text⟩] }

/-- Body of `for text in lines` in the `'a'` branch: only the old-file
counter is incremented; the record carries the old-file number. -/
def stepRemoved (s : DiffState) (text : String) : DiffState :=
  { line_num_a := s.line_num_a + 1
    line_num_b := s.line_num_b
    line_changes := s.line_changes ++ [⟨.removed, s.line_num_a + 1, text⟩] }

/-- Body of `for text in lines` in the `'b'` branch: only the new-file
counter is incremented; the record carries the new-file number. -/
def stepAdded (s : DiffState) (text : String) : DiffState :=
  { s with
    line_num_b := s.line_num_b + 1
    line_changes := s.line_changes ++ [⟨.added, s.line_num_b + 1, text⟩] }

/-- Processing of one content block (the `if 'ab' / elif 'a' / elif 'b' /
elif 'skip'` chain). -/
def processBlock (s : DiffState) : DiffSegment → DiffState
  | .common lines => lines.foldl stepCommon s
  | .removed lines => lines.foldl stepRemoved s
  | .added lines => lines.foldl stepAdded s
  | .skip n =>
    { s with
      line_num_a := s.line_num_a + n
      line_num_b := s.line_num_b + n }

/-- The whole parsing loop: both counters start at 0 and the blocks are
processed in order. -/
def parseDiffContent (content_blocks : List DiffSegment) : DiffState :=
  content_blocks.foldl processBlock ⟨0, 0, []⟩

/-! ## The older duplicate (`src/gerrit/api.py`, `get_file_diff`,
lines 417-452)

That variant keeps a single counter `current_line` starting at 1 and, in
each section, processes the keys `ab`, `b` and `a` in this order (a section
dict may in principle carry several of them, so the section is modelled
with all three fields, absent keys being `[]`).  Removed lines do not
advance the counter and are tagged with `current_line - 1`; `skip` keys are
ignored entirely.  `current_line` starts at 1 and never decreases, so the
Python `current_line - 1` never goes below 0 and truncated `Nat`
subtraction is faithful. -/

/-- One section of the diff body as consumed by the api.py variant. -/
structure ApiDiffSection where
  ab : List String
  b : List String
  a : List String
deriving DecidableEq, Repr

/-- Processing of one section in the api.py variant. -/
def apiSectionStep (st : Nat × List LineChange) (sec : ApiDiffSection) :
    Nat × List LineChange :=
  let st1 := sec.ab.foldl
    (fun p text => (p.1 + 1, p.2 ++ [⟨.common, p.1, text⟩])) st
  let st2 := sec.b.foldl
    (fun p text => (p.1 + 1, p.2 ++ [⟨.added, p.1, text⟩])) st1
  sec.a.foldl
    (fun p text => (p.1, p.2 ++ [⟨.removed, p.1 - 1, text⟩])) st2

/-- The api.py parsing loop: `current_line` starts at 1. -/
def apiLineChanges (sections : List ApiDiffSection) : List LineChange :=
  (sections.foldl apiSectionStep (1, [])).2

/-! ## String helpers modelling the Python primitives used by
`make_gerrit_request` -/

/-- Python `pat in l` (substring containment). -/
def strContains : PyStr → PyStr → Bool
  | [], pat => pat.isEmpty
  | c :: rest, pat => pat.isPrefixOf (c :: rest) || strContains rest pat

/-- Python `s.split(sep)` for a single-character separator: splits on every
occurrence, keeping empty pieces (`"".split` gives `[""]`). -/
def splitOnChar (sep : Char) : PyStr → List PyStr
  | [] => [[]]
  | c :: rest =>
    match splitOnChar sep rest with
    | [] => [[]]
    | h :: t => if c == sep then [] :: h :: t else (c :: h) :: t

/-- Python `sep.join(pieces)`. -/
def joinWith (sep : PyStr) : List PyStr → PyStr
  | [] => []
  | [x] => x
  | x :: y :: t => x ++ sep ++ joinWith sep (y :: t)

/-- Python `pieces.index(x)`, returning `none` where Python raises
`ValueError`. -/
def indexOfPiece (x : PyStr) : List PyStr → Option Nat
  | [] => none
  | h :: t => if h == x then some 0 else (indexOfPiece x t).map (· + 1)

/-- Python `s.lstrip('/')`. -/
def lstripSlash (l : PyStr) : PyStr := l.dropWhile (fun c => c == '/')

/-- Python `s.isdigit()` restricted to ASCII digits (the repository only
ever passes ASCII change numbers). -/
def pyIsDigit (l : PyStr) : Bool := !l.isEmpty && l.all Char.isDigit

/-- Upper-case hexadecimal digit for a value below 16, as produced by
`urllib.parse.quote`. -/
def hexDigitChar (n : Nat) : Char :=
  if n < 10 then Char.ofNat (48 + n) else Char.ofNat (55 + n)

/-- UTF-8 encoding of one character, as the list of its byte values. -/
def utf8Bytes (c : Char) : List Nat :=
  let n := c.toNat
  if n < 0x80 then [n]
  else if n < 0x800 then [0xC0 + n / 64, 0x80 + n % 64]
  else if n < 0x10000 then
    [0xE0 + n / 4096, 0x80 + (n / 64) % 64, 0x80 + n % 64]
  else
    [0xF0 + n / 262144, 0x80 + (n / 4096) % 64, 0x80 + (n / 64) % 64,
      0x80 + n % 64]

/-- The bytes `urllib.parse.quote` never encodes (letters, digits and
`_.-~`; the calls in the source pass `safe=''`). -/
def isSafeByte (b : Nat) : Bool :=
  (65 ≤ b && b ≤ 90) || (97 ≤ b && b ≤ 122) || (48 ≤ b && b ≤ 57) ||
    b == 95 || b == 46 || b == 126 || b == 45

/-- Percent-encoding of a byte list. -/
def quoteBytes : List Nat → PyStr
  | [] => []
  | b :: t =>
    (if isSafeByte b then [Char.ofNat b]
     else ['%', hexDigitChar (b / 16), hexDigitChar (b % 16)]) ++ quoteBytes t

/-- Python `urllib.parse.quote(s, safe='')`: UTF-8 encode, then
percent-encode every byte outside the always-safe set. -/
def pyQuote (l : PyStr) : PyStr := quoteBytes (l.flatMap utf8Bytes)

/-- Python `s.replace(pat, rep)` (all non-overlapping occurrences, left to
right), driven by a character-count fuel; every step consumes at least one
character of the remaining input, so `l.length` fuel is always enough. -/
def replaceAllFuel (pat rep : PyStr) : Nat → PyStr → PyStr
  | _, [] => []
  | 0, l => l
  | fuel + 1, c :: rest =>
    if !pat.isEmpty && pat.isPrefixOf (c :: rest) then
      rep ++ replaceAllFuel pat rep fuel ((c :: rest).drop pat.length)
    else c :: replaceAllFuel pat rep fuel rest

/-- Python `l.replace(pat, rep)`. -/
def replaceAll (pat rep l : PyStr) : PyStr := replaceAllFuel pat rep l.length l

/-! ## URL normalization (`src/gerrit/api.py`, `make_gerrit_request`,
lines 113-185)

`processUrl` is the pure URL-rewriting part of `make_gerrit_request`: it
receives `gerrit_url` (from `get_auth_credentials`) and the `url` argument
and produces the `processed_url` the request is finally issued against. -/

/-- Encoding of the extracted change-id path segment (api.py lines
140-155): a `project~number` pair gets the project part quoted, a longer
`~`-joined tuple gets every part quoted, a non-numeric plain id is quoted
whole, and a numeric id is left as is. -/
def encodeChangeIdPart (part : PyStr) : PyStr :=
  if strContains part (str "~") then
    match splitOnChar '~' part with
    | [project, number] => pyQuote project ++ '~' :: number
    | parts => joinWith ['~'] (parts.map pyQuote)
  else if !pyIsDigit part then pyQuote part
  else part

/-- The `'/changes/' in url` branch (api.py lines 117-172): re-extract the
change id relative to the base URL, encode it and rebuild the URL, keeping
an already-present `/a/` marker; on any parse failure fall back to the
original `url`. -/
def reconstructChangesUrl (gerrit_url url : PyStr) : PyStr :=
  if gerrit_url.isPrefixOf url then
    let relative_path := lstripSlash (url.drop gerrit_url.length)
    let path_parts := splitOnChar '/' relative_path
    match indexOfPiece (str "changes") path_parts with
    | some changes_index =>
      if changes_index + 1 < path_parts.length then
        let change_id_part := (path_parts.drop (changes_index + 1)).headI
        let remaining_path := joinWith ['/'] (path_parts.drop (changes_index + 2))
        let encoded := encodeChangeIdPart change_id_part
        let authSeg := if strContains url (str "/a/changes/") then str "/a/" else str "/"
        let p1 := gerrit_url ++ authSeg ++ str "changes/" ++ encoded
        if remaining_path.isEmpty then p1 else p1 ++ '/' :: remaining_path
      else url
    | none => url
  else url

/-- The non-`/changes/` branch (api.py lines 173-180): prepend `/a/` to the
relative path unless an `/a/` segment is already present. -/
def addAuthNonChanges (gerrit_url url : PyStr) : PyStr :=
  if !gerrit_url.isEmpty && gerrit_url.isPrefixOf url &&
      !strContains url (str "/a/") then
    let relative_path := lstripSlash (url.drop gerrit_url.length)
    if !(str "a/").isPrefixOf relative_path then
      gerrit_url ++ str "/a/" ++ relative_path
    else url
  else url

/-- The final check (api.py lines 182-185): any URL still mentioning
`/changes/` without `/a/changes/` gets every `/changes/` rewritten to
`/a/changes/`. -/
def finalAuthFix (processed : PyStr) : PyStr :=
  if strContains processed (str "/changes/") &&
      !strContains processed (str "/a/changes/") then
    replaceAll (str "/changes/") (str "/a/changes/") processed
  else processed

/-- The complete URL rewriting of `make_gerrit_request`. -/
def processUrl (gerrit_url url : PyStr) : PyStr :=
  finalAuthFix
    (if strContains url (str "/changes/") then reconstructChangesUrl gerrit_url url
     else addAuthNonChanges gerrit_url url)

/-! ## Endpoint URL construction -/

/-- `get_commit_message` (api.py lines 313-330): the one endpoint whose URL
is built without the `/a/` segment. -/
def get_commit_message_url (gerrit_url change_id : PyStr) : PyStr :=
  gerrit_url ++ str "/changes/" ++ change_id ++ str "/revisions/current/commit"

/-- `get_change_detail` (api.py lines 293-310). -/
def get_change_detail_url (gerrit_url change_id : PyStr) : PyStr :=
  gerrit_url ++ str "/a/changes/" ++ change_id ++ str "/detail"

/-- `get_commit_info` (api.py lines 273-290). -/
def get_commit_info_url (gerrit_url change_id : PyStr) : PyStr :=
  gerrit_url ++ str "/a/changes/" ++ change_id ++ str "/revisions/current/commit"

/-! ## JSON values and `json.loads`

`parse_gerrit_response` feeds the (prefix-stripped) body to `json.loads`.
The decoder below follows the strict JSON grammar that `json.loads`
accepts: objects are modelled as association lists in insertion order
(Gerrit responses have unique keys; `json.loads` would keep the last
duplicate), numbers are kept as their lexeme to avoid floating point, and
`\uXXXX` escapes become the single character of that code point (surrogate
pairs are not recombined; no claim touches them). -/

/-- A decoded JSON value. -/
inductive Json where
  | null
  | bool (b : Bool)
  | num (lexeme : PyStr)
  | string (s : PyStr)
  | array (xs : List Json)
  | object (fields : List (PyStr × Json))
deriving Repr

/-- JSON inter-token whitespace. -/
def jsonWsChar : Char → Bool
  | ' ' | '\t' | '\n' | '\r' => true
  | _ => false

/-- Skip JSON whitespace. -/
def skipWs (l : PyStr) : PyStr := l.dropWhile jsonWsChar

/-- Value of one hexadecimal digit. -/
def hexVal (c : Char) : Option Nat :=
  if '0' ≤ c ∧ c ≤ '9' then some (c.toNat - 48)
  else if 'a' ≤ c ∧ c ≤ 'f' then some (c.toNat - 87)
  else if 'A' ≤ c ∧ c ≤ 'F' then some (c.toNat - 55)
  else none

/-- Four hexadecimal digits of a `\uXXXX` escape. -/
def parseHex4 : PyStr → Option (Nat × PyStr)
  | c1 :: c2 :: c3 :: c4 :: rest =>
    match hexVal c1, hexVal c2, hexVal c3, hexVal c4 with
    | some h1, some h2, some h3, some h4 =>
      some (((h1 * 16 + h2) * 16 + h3) * 16 + h4, rest)
    | _, _, _, _ => none
  | _ => none

/-- The character denoted by a one-letter escape. -/
def escChar : Char → Option Char
  | '"' => some '"'
  | '\\' => some '\\'
  | '/' => some '/'
  | 'b' => some (Char.ofNat 8)
  | 'f' => some (Char.ofNat 12)
  | 'n' => some '\n'
  | 'r' => some '\r'
  | 't' => some '\t'
  | _ => none

/-- JSON string body parser; the input starts after the opening quote and
the returned remainder starts after the closing quote.  The fuel only
bounds recursion depth; `length + 1` always suffices since every step
consumes at least one character. -/
def parseJsonString : Nat → PyStr → Option (PyStr × PyStr)
  | 0, _ => none
  | _ + 1, [] => none
  | fuel + 1, c :: rest =>
    if c == '"' then some ([], rest)
    else if c == '\\' then
      match rest with
      | [] => none
      | e :: rest2 =>
        if e == 'u' then
          match parseHex4 rest2 with
          | some (n, rest3) =>
            (parseJsonString fuel rest3).map fun p => (Char.ofNat n :: p.1, p.2)
          | none => none
        else
          match escChar e with
          | some ec => (parseJsonString fuel rest2).map fun p => (ec :: p.1, p.2)
          | none => none
    else if c.toNat < 32 then none
    else (parseJsonString fuel rest).map fun p => (c :: p.1, p.2)

/-- JSON number lexer, mirroring the decoder's regular expression
`(-?(?:0|[1-9]\d*))(\.\d+)?([eE][-+]?\d+)?`: the longest valid lexeme is
taken and trailing garbage is left in the remainder. -/
def parseJsonNumber (l : PyStr) : Option (PyStr × PyStr) :=
  let sl : PyStr × PyStr :=
    match l with
    | '-' :: r => (['-'], r)
    | _ => ([], l)
  match sl.2 with
  | [] => none
  | c :: rest =>
    if !c.isDigit then none
    else
      let ipl : PyStr × PyStr :=
        if c == '0' then ([c], rest)
        else (c :: rest.takeWhile Char.isDigit, rest.dropWhile Char.isDigit)
      let fpl : PyStr × PyStr :=
        match ipl.2 with
        | '.' :: r =>
          let d := r.takeWhile Char.isDigit
          if d.isEmpty then ([], ipl.2) else ('.' :: d, r.dropWhile Char.isDigit)
        | _ => ([], ipl.2)
      let epl : PyStr × PyStr :=
        match fpl.2 with
        | e :: r =>
          if e == 'e' || e == 'E' then
            let sr : PyStr × PyStr :=
              match r with
              | s :: rr => if s == '+' || s == '-' then ([s], rr) else ([], r)
              | [] => ([], r)
            let d := sr.2.takeWhile Char.isDigit
            if d.isEmpty then ([], fpl.2)
            else (e :: (sr.1 ++ d), sr.2.dropWhile Char.isDigit)
          else ([], fpl.2)
        | [] => ([], fpl.2)
      some (sl.1 ++ ipl.1 ++ fpl.1 ++ epl.1, epl.2)

mutual

/-- JSON value parser; the input must start at a token (whitespace already
skipped).  Fuel bounds the recursion; `length + 1` suffices because every
two fuel units consume at least one input character. -/
def parseJsonValue : Nat → PyStr → Option (Json × PyStr)
  | 0, _ => none
  | fuel + 1, l =>
    match l with
    | [] => none
    | c :: rest =>
      if c == '"' then
        (parseJsonString (rest.length + 1) rest).map fun p => (.string p.1, p.2)
      else if c == Char.ofNat 123 then
        match skipWs rest with
        | d :: r2 =>
          if d == Char.ofNat 125 then some (.object [], r2)
          else parseJsonMembers fuel (d :: r2)
        | [] => none
      else if c == '[' then
        match skipWs rest with
        | ']' :: r2 => some (.array [], r2)
        | r1 => parseJsonElements fuel r1
      else if (str "true").isPrefixOf l then some (.bool true, l.drop 4)
      else if (str "false").isPrefixOf l then some (.bool false, l.drop 5)
      else if (str "null").isPrefixOf l then some (.null, l.drop 4)
      else (parseJsonNumber l).map fun p => (.num p.1, p.2)

/-- Parser for the members of a non-empty object, starting at the first
key's opening quote. -/
def parseJsonMembers : Nat → PyStr → Option (Json × PyStr)
  | 0, _ => none
  | fuel + 1, l =>
    match l with
    | '"' :: rest =>
      match parseJsonString (rest.length + 1) rest with
      | none => none
      | some (key, r1) =>
        match skipWs r1 with
        | ':' :: r2 =>
          match parseJsonValue fuel (skipWs r2) with
          | none => none
          | some (v, r3) =>
            match skipWs r3 with
            | ',' :: r4 =>
              match parseJsonMembers fuel (skipWs r4) with
              | some (.object fields, r5) => some (.object ((key, v) :: fields), r5)
              | _ => none
            | d :: r4 =>
              if d == Char.ofNat 125 then some (.object [(key, v)], r4) else none
            | [] => none
        | _ => none
    | _ => none

/-- Parser for the elements of a non-empty array, starting at the first
element. -/
def parseJsonElements : Nat → PyStr → Option (Json × PyStr)
  | 0, _ => none
  | fuel + 1, l =>
    match parseJsonValue fuel l with
    | none => none
    | some (v, r1) =>
      match skipWs r1 with
      | ',' :: r2 =>
        match parseJsonElements fuel (skipWs r2) with
        | some (.array xs, r3) => some (.array (v :: xs), r3)
        | _ => none
      | ']' :: r2 => some (.array [v], r2)
      | _ => none

end

/-- Python `json.loads`: a single value with only whitespace around it. -/
def jsonLoads (l : PyStr) : Option Json :=
  match parseJsonValue (l.length + 1) (skipWs l) with
  | some (v, rest) => if (skipWs rest).isEmpty then some v else none
  | none => none

/-! ## Response classification (`make_gerrit_request` lines 204-218 and
`parse_gerrit_response` lines 33-56) -/

/-- The error outcomes of the request executor, carrying the same data the
Python exception messages interpolate. -/
inductive GerritError where
  | notFound (path : PyStr)
  | apiError (status : Nat) (body : PyStr)
  | decodeError (text : PyStr)
deriving DecidableEq, Repr

/-- The characters Python's `str.strip()` removes (ASCII whitespace; the
bodies handled here are ASCII). -/
def pyWsChar : Char → Bool
  | ' ' | '\t' | '\n' | '\r' => true
  | c => c.toNat == 11 || c.toNat == 12

/-- Python `s.strip()`. -/
def pyStrip (l : PyStr) : PyStr :=
  ((l.dropWhile pyWsChar).reverse.dropWhile pyWsChar).reverse

/-- Gerrit's 4-character magic prefix `)]}'`. -/
def magicPrefix : PyStr := [')', ']', Char.ofNat 125, Char.ofNat 39]

/-- `parse_gerrit_response`: strip the magic prefix if present, then
`json.loads` the stripped remainder; a decode failure carries the text
that was being parsed (after prefix removal, as the Python variable is
reassigned before the `except` block reads it). -/
def parse_gerrit_response (response_text : PyStr) : Except GerritError Json :=
  let t := if magicPrefix.isPrefixOf response_text then response_text.drop 4
    else response_text
  match jsonLoads (pyStrip t) with
  | some v => .ok v
  | none => .error (.decodeError t)

/-- The status classification of `make_gerrit_request` once the response
arrived: 404 first, then every other status `>= 400`, then the parse of
the body. -/
def handleResponse (processed_url : PyStr) (status : Nat) (response_text : PyStr) :
    Except GerritError Json :=
  if status == 404 then .error (.notFound processed_url)
  else if 400 ≤ status then .error (.apiError status response_text)
  else parse_gerrit_response response_text

/-! ## Draft comment body (`create_draft_comment`, api.py lines 461-507,
and `create_draft_comment_tool`, review_tools.py lines 15-62) -/

/-- The `CommentInput` request body.  The `line` field is `none` when the
key is absent, `some none` when the key is present with value `null`
(Python `None`), and `some (some n)` for an integer value. -/
structure CommentInput where
  path : PyStr
  message : PyStr
  unresolved : PyStr
  line : Option (Option Int)
deriving DecidableEq, Repr

/-- `create_draft_comment`'s body construction: the `line` key is added
whenever the argument differs from `-1`.  The argument is `Option Int`
because the façade passes Python `None` (modelled `none`); `None != -1`
holds in Python, so `none` also takes the "add the key" branch. -/
def create_draft_comment_data (file_path message : PyStr) (line : Option Int) :
    CommentInput :=
  { path := file_path
    message := message
    unresolved := str "true"
    line := if line == some (-1) then none else some line }

/-- `create_draft_comment_tool`: validate `file_path` and `message`, map a
`line` of `-1` to `None`, and delegate to `create_draft_comment`; the
result is the request body that reaches the drafts endpoint. -/
def create_draft_comment_tool_body (file_path message : PyStr) (line : Int) :
    Except PyStr CommentInput :=
  if file_path.isEmpty then .error (str "File path is required")
  else if message.isEmpty then .error (str "Comment message is required")
  else
    .ok (create_draft_comment_data file_path message
      (if line == -1 then none else some line))

/-! ## The `get_commit_info` pipeline (C9)

Neither `get_commit_info_tool` (commit_tools.py lines 15-35) nor
`get_commit_info` (api.py lines 273-290) nor `make_gerrit_request` tests
the change id for emptiness: after the (external) session lookup the URL
is interpolated and the request is issued unconditionally. -/

/-- What a tool does before the network: either it fails an argument check
or it issues one request at a URL. -/
inductive RequestAttempt where
  | invalidArgument (msg : PyStr)
  | request (url : PyStr)
deriving DecidableEq, Repr

/-- The pre-network behaviour of the `get_commit_info` tool path: the URL
is built and normalized and the request is attempted; no branch inspects
`change_id`. -/
def get_commit_info_attempt (gerrit_url change_id : PyStr) : RequestAttempt :=
  .request (processUrl gerrit_url (get_commit_info_url gerrit_url change_id))

/-! ## `get_file_list` post-processing (api.py lines 353-379)

The remote file map is a JSON object, modelled as an association list in
insertion order with unique keys (a guaranteed property of a Python
dict); `del result['/COMMIT_MSG']` removes the unique entry with that
key. -/

/-- The result shape `{"files": ...}`: a dictionary with the single key
`files`. -/
structure FileListResult (α : Type) where
  files : List (PyStr × α)
deriving DecidableEq, Repr

/-- The success-path transformation of `get_file_list`: drop the
`/COMMIT_MSG` pseudo-file entry (if present) and wrap the map. -/
def get_file_list_result {α : Type} (files_data : List (PyStr × α)) :
    FileListResult α :=
  ⟨files_data.eraseP (fun p => p.1 == str "/COMMIT_MSG")⟩

/-! ## Specification helpers (used only to state closed forms) -/

/-- The records an all-removed run starting at old-file counter `a`
produces: the k-th line gets old-file number `a + k` (1-based). -/
def removedFrom (a : Nat) : List String → List LineChange
  | [] => []
  | t :: ts => ⟨.removed, a + 1, t⟩ :: removedFrom (a + 1) ts

/-- A sample base URL for the concrete counterexamples. -/
def demoBase : PyStr := str "https://gerrit.example.com"

/-! # Theorems -/

/-! ## Diff reconstruction lemmas -/

theorem foldl_stepRemoved (lines : List String) :
    ∀ (a b : Nat) (acc : List LineChange),
      List.foldl stepRemoved ⟨a, b, acc⟩ lines =
        ⟨a + lines.length, b, acc ++ removedFrom a lines⟩ := by
  induction lines with
  | nil => intro a b acc; simp [removedFrom]
  | cons t ts ih =>
    intro a b acc
    simp only [List.foldl_cons, stepRemoved, removedFrom]
    rw [ih]
    simp [List.append_assoc]
    omega

theorem removedFrom_append (l₁ l₂ : List String) :
    ∀ a : Nat, removedFrom a (l₁ ++ l₂) =
      removedFrom a l₁ ++ removedFrom (a + l₁.length) l₂ := by
  induction l₁ with
  | nil => simp [removedFrom]
  | cons t ts ih =>
    intro a
    show (⟨.removed, a + 1, t⟩ : LineChange) :: removedFrom (a + 1) (ts ++ l₂) = _
    rw [ih (a + 1)]
    have h : a + 1 + ts.length = a + (t :: ts).length := by
      simp only [List.length_cons]
      omega
    rw [h]
    rfl

theorem parse_removed_only (liness : List (List String)) :
    ∀ (a b : Nat) (acc : List LineChange),
      List.foldl processBlock ⟨a, b, acc⟩ (liness.map DiffSegment.removed) =
        ⟨a + liness.flatten.length, b, acc ++ removedFrom a liness.flatten⟩ := by
  induction liness with
  | nil => intro a b acc; simp [removedFrom]
  | cons l ls ih =>
    intro a b acc
    simp only [List.map_cons, List.foldl_cons, processBlock]
    rw [foldl_stepRemoved, ih]
    simp [removedFrom_append, List.append_assoc, DiffState.mk.injEq, Nat.add_assoc]

theorem removedFrom_map_type (l : List String) :
    ∀ a : Nat, (removedFrom a l).map LineChange.type =
      List.replicate l.length LineType.removed := by
  induction l with
  | nil => intro a; rfl
  | cons t ts ih => intro a; simp [removedFrom, ih, List.replicate]

theorem removedFrom_map_line_number (l : List String) :
    ∀ a : Nat, (removedFrom a l).map LineChange.line_number =
      List.range' (a + 1) l.length := by
  induction l with
  | nil => intro a; rfl
  | cons t ts ih => intro a; simp [removedFrom, ih, List.range']

theorem removedFrom_map_content (l : List String) :
    ∀ a : Nat, (removedFrom a l).map LineChange.content = l := by
  induction l with
  | nil => intro a; rfl
  | cons t ts ih => intro a; simp [removedFrom, ih]

theorem foldl_stepCommon_counters (lines : List String) :
    ∀ s : DiffState,
      (List.foldl stepCommon s lines).line_num_a = s.line_num_a + lines.length ∧
      (List.foldl stepCommon s lines).line_num_b = s.line_num_b + lines.length := by
  induction lines with
  | nil => intro s; simp
  | cons t ts ih =>
    intro s
    simp only [List.foldl_cons]
    obtain ⟨ha, hb⟩ := ih (stepCommon s t)
    rw [ha, hb]
    simp only [stepCommon, List.length_cons]
    omega

theorem foldl_stepAdded_counters (lines : List String) :
    ∀ s : DiffState,
      (List.foldl stepAdded s lines).line_num_a = s.line_num_a ∧
      (List.foldl stepAdded s lines).line_num_b = s.line_num_b + lines.length := by
  induction lines with
  | nil => intro s; simp
  | cons t ts ih =>
    intro s
    simp only [List.foldl_cons]
    obtain ⟨ha, hb⟩ := ih (stepAdded s t)
    rw [ha, hb]
    simp [stepAdded]
    omega

theorem foldl_stepRemoved_counters (lines : List String) :
    ∀ s : DiffState,
      (List.foldl stepRemoved s lines).line_num_a = s.line_num_a + lines.length ∧
      (List.foldl stepRemoved s lines).line_num_b = s.line_num_b := by
  induction lines with
  | nil => intro s; simp
  | cons t ts ih =>
    intro s
    simp only [List.foldl_cons]
    obtain ⟨ha, hb⟩ := ih (stepRemoved s t)
    rw [ha, hb]
    simp [stepRemoved]
    omega

theorem processBlock_mono (s : DiffState) (seg : DiffSegment) :
    s.line_num_a ≤ (processBlock s seg).line_num_a ∧
    s.line_num_b ≤ (processBlock s seg).line_num_b := by
  cases seg with
  | common lines =>
    have h := foldl_stepCommon_counters lines s
    simp only [processBlock]
    omega
  | removed lines =>
    have h := foldl_stepRemoved_counters lines s
    simp only [processBlock]
    omega
  | added lines =>
    have h := foldl_stepAdded_counters lines s
    simp only [processBlock]
    omega
  | skip n => simp [processBlock]

theorem foldl_processBlock_mono (segs : List DiffSegment) :
    ∀ s : DiffState,
      s.line_num_a ≤ (List.foldl processBlock s segs).line_num_a ∧
      s.line_num_b ≤ (List.foldl processBlock s segs).line_num_b := by
  induction segs with
  | nil => intro s; simp
  | cons seg rest ih =>
    intro s
    have h1 := processBlock_mono s seg
    have h2 := ih (processBlock s seg)
    simp only [List.foldl_cons]
    omega

/-! ## The diff-reconstruction claims -/

/-- C1: on the three-segment input Common(["a","b"]), Added(["c"]),
Removed(["d"]) the reconstruction yields exactly the records
(common,1,"a"), (common,2,"b"), (added,3,"c"), (removed,3,"d") — the
removed line number being the old-side counter after the two common lines
advanced it.  Both the §4.3 reconstructor (`server_direct.py`) and the
api.py duplicate produce this output. -/
theorem C1_three_segment_example :
    (parseDiffContent [DiffSegment.common ["a", "b"], DiffSegment.added ["c"],
        DiffSegment.removed ["d"]]).line_changes =
      [⟨.common, 1, "a"⟩, ⟨.common, 2, "b"⟩, ⟨.added, 3, "c"⟩, ⟨.removed, 3, "d"⟩] ∧
    apiLineChanges [⟨["a", "b"], [], []⟩, ⟨[], ["c"], []⟩, ⟨[], [], ["d"]⟩] =
      [⟨.common, 1, "a"⟩, ⟨.common, 2, "b"⟩, ⟨.added, 3, "c"⟩, ⟨.removed, 3, "d"⟩] :=
  ⟨rfl, rfl⟩

/-- C2: a segment list of only Removed segments produces only `removed`
records, the k-th of which carries line number k (its 1-based position in
the old file) and the k-th removed line as content; in particular the
first removed record is numbered 1, not 0. -/
theorem C2_removed_only (liness : List (List String)) :
    ((parseDiffContent (liness.map DiffSegment.removed)).line_changes.map
        LineChange.type = List.replicate liness.flatten.length LineType.removed) ∧
    ((parseDiffContent (liness.map DiffSegment.removed)).line_changes.map
        LineChange.line_number = List.range' 1 liness.flatten.length) ∧
    ((parseDiffContent (liness.map DiffSegment.removed)).line_changes.map
        LineChange.content = liness.flatten) := by
  unfold parseDiffContent
  rw [parse_removed_only liness 0 0 []]
  simp only [List.nil_append]
  exact ⟨removedFrom_map_type _ 0, removedFrom_map_line_number _ 0,
    removedFrom_map_content _ 0⟩

/-- C3: a Skip(count) segment advances both counters by `count` and emits
no record; Skip(5) alone yields an empty output with both counters at 5,
and a following Common segment starts at line number 6. -/
theorem C3_skip_advances_both :
    (∀ (s : DiffState) (n : Nat),
        processBlock s (DiffSegment.skip n) =
          ⟨s.line_num_a + n, s.line_num_b + n, s.line_changes⟩) ∧
    parseDiffContent [DiffSegment.skip 5] = ⟨5, 5, []⟩ ∧
    (parseDiffContent [DiffSegment.skip 5, DiffSegment.common ["x"]]).line_changes =
      [⟨.common, 6, "x"⟩] :=
  ⟨fun _ _ => rfl, rfl, rfl⟩

/-- C4: in the single forward pass, common segments advance both counters
by their line count, added segments only the new-side counter, removed
segments only the old-side counter, skip segments both; consequently
neither counter ever decreases across processing any segment list from
any state. -/
theorem C4_counter_invariants :
    (∀ (s : DiffState) (lines : List String),
        (processBlock s (DiffSegment.common lines)).line_num_a =
            s.line_num_a + lines.length ∧
        (processBlock s (DiffSegment.common lines)).line_num_b =
            s.line_num_b + lines.length) ∧
    (∀ (s : DiffState) (lines : List String),
        (processBlock s (DiffSegment.added lines)).line_num_a = s.line_num_a ∧
        (processBlock s (DiffSegment.added lines)).line_num_b =
            s.line_num_b + lines.length) ∧
    (∀ (s : DiffState) (lines : List String),
        (processBlock s (DiffSegment.removed lines)).line_num_a =
            s.line_num_a + lines.length ∧
        (processBlock s (DiffSegment.removed lines)).line_num_b = s.line_num_b) ∧
    (∀ (s : DiffState) (n : Nat),
        (processBlock s (DiffSegment.skip n)).line_num_a = s.line_num_a + n ∧
        (processBlock s (DiffSegment.skip n)).line_num_b = s.line_num_b + n) ∧
    (∀ (s : DiffState) (segs : List DiffSegment),
        s.line_num_a ≤ (List.foldl processBlock s segs).line_num_a ∧
        s.line_num_b ≤ (List.foldl processBlock s segs).line_num_b) :=
  ⟨fun s lines => foldl_stepCommon_counters lines s,
   fun s lines => foldl_stepAdded_counters lines s,
   fun s lines => foldl_stepRemoved_counters lines s,
   fun _ _ => ⟨rfl, rfl⟩,
   fun s segs => foldl_processBlock_mono segs s⟩

/-! ## Substring lemmas for the URL normalizer -/

theorem isPrefixOf_append_self (l x : PyStr) : l.isPrefixOf (l ++ x) = true := by
  rw [List.isPrefixOf_iff_prefix]
  exact List.prefix_append l x

theorem isPrefixOf_append_extend (p l x : PyStr) (h : p.isPrefixOf l = true) :
    p.isPrefixOf (l ++ x) = true := by
  rw [List.isPrefixOf_iff_prefix] at h ⊢
  exact h.trans (List.prefix_append l x)

theorem strContains_nil_pat (l : PyStr) : strContains l [] = true := by
  cases l <;> simp [strContains, List.isPrefixOf]

theorem strContains_self_append (pat x : PyStr) :
    strContains (pat ++ x) pat = true := by
  cases pat with
  | nil => exact strContains_nil_pat x
  | cons p ps =>
    have h : (p :: ps).isPrefixOf (p :: (ps ++ x)) = true :=
      isPrefixOf_append_self (p :: ps) x
    simp [strContains, h]

theorem strContains_cons (c : Char) {l pat : PyStr}
    (h : strContains l pat = true) : strContains (c :: l) pat = true := by
  simp [strContains, h]

theorem strContains_append_left (x : PyStr) {l pat : PyStr}
    (h : strContains l pat = true) : strContains (x ++ l) pat = true := by
  induction x with
  | nil => exact h
  | cons c t ih => exact strContains_cons c ih

theorem strContains_append_right (x : PyStr) :
    ∀ (l pat : PyStr), strContains l pat = true →
      strContains (l ++ x) pat = true := by
  intro l
  induction l with
  | nil =>
    intro pat h
    have hp : pat = [] := by simpa [strContains, List.isEmpty_iff] using h
    subst hp
    exact strContains_nil_pat x
  | cons c t ih =>
    intro pat h
    rw [strContains, Bool.or_eq_true] at h
    rcases h with hp | hc
    · have hext : pat.isPrefixOf (c :: (t ++ x)) = true :=
        isPrefixOf_append_extend pat (c :: t) x hp
      simp [strContains, hext]
    · exact strContains_cons c (ih pat hc)

theorem replaceAllFuel_contains (pat rep : PyStr) (hpat : pat ≠ []) :
    ∀ (fuel : Nat) (l : PyStr), l.length ≤ fuel → strContains l pat = true →
      strContains (replaceAllFuel pat rep fuel l) rep = true := by
  intro fuel
  induction fuel with
  | zero =>
    intro l hl hc
    have hnil : l = [] := List.eq_nil_of_length_eq_zero (Nat.le_zero.1 hl)
    subst hnil
    simp [strContains, List.isEmpty_iff] at hc
    exact absurd hc hpat
  | succ f ih =>
    intro l hl hc
    cases l with
    | nil =>
      simp [strContains, List.isEmpty_iff] at hc
      exact absurd hc hpat
    | cons c rest =>
      simp only [replaceAllFuel]
      by_cases hm : (!pat.isEmpty && pat.isPrefixOf (c :: rest)) = true
      · rw [if_pos hm]
        exact strContains_self_append rep _
      · rw [if_neg hm]
        apply strContains_cons
        have hrest : strContains rest pat = true := by
          cases hv : pat.isPrefixOf (c :: rest) with
          | true =>
            exfalso
            apply hm
            have hne : pat.isEmpty = false := by
              cases pat with
              | nil => exact absurd rfl hpat
              | cons _ _ => rfl
            simp [hne, hv]
          | false =>
            have hcc := hc
            rw [strContains] at hcc
            simpa [hv] using hcc
        exact ih rest (by simpa using Nat.le_of_succ_le_succ hl) hrest

theorem replaceAll_contains {l pat : PyStr} (rep : PyStr) (hpat : pat ≠ [])
    (h : strContains l pat = true) :
    strContains (replaceAll pat rep l) rep = true :=
  replaceAllFuel_contains pat rep hpat l.length l (Nat.le_refl _) h

theorem finalAuthFix_contains (p : PyStr)
    (h : strContains p (str "/changes/") = true) :
    strContains (finalAuthFix p) (str "/a/changes/") = true := by
  cases ha : strContains p (str "/a/changes/") with
  | true => simp [finalAuthFix, ha]
  | false =>
    simp only [finalAuthFix, ha, h, Bool.not_false, Bool.and_self, if_true]
    exact replaceAll_contains _ (by decide) h

theorem contains_changes_a (x : PyStr) :
    strContains (str "/a/" ++ (str "changes/" ++ x)) (str "/changes/") = true := by
  show strContains ('/' :: 'a' :: (str "/changes/" ++ x)) (str "/changes/") = true
  exact strContains_cons '/' (strContains_cons 'a' (strContains_self_append _ x))

theorem contains_changes_plain (x : PyStr) :
    strContains (str "/" ++ (str "changes/" ++ x)) (str "/changes/") = true :=
  strContains_self_append (str "/changes/") x

theorem reconstructChangesUrl_contains (g u : PyStr)
    (h : strContains u (str "/changes/") = true) :
    strContains (reconstructChangesUrl g u) (str "/changes/") = true := by
  simp only [reconstructChangesUrl]
  split
  · split
    · split
      · split
        · split
          · simp only [List.append_assoc]
            exact strContains_append_left g (contains_changes_a _)
          · simp only [List.append_assoc]
            exact strContains_append_left g (contains_changes_plain _)
        · split
          · simp only [List.append_assoc]
            exact strContains_append_left g (contains_changes_a _)
          · simp only [List.append_assoc]
            exact strContains_append_left g (contains_changes_plain _)
      · exact h
    · exact h
  · exact h

/-! ## The C5 and C6 claims -/

/-- C5 (amended): `get_commit_message` builds its URL without the `/a/`
segment, but the final normalization step of `make_gerrit_request`
rewrites every `/changes/` URL to contain `/a/changes/` — for every base
URL and change id the final request path contains the auth segment. -/
theorem C5_commit_message_auth_inserted (gerrit_url change_id : PyStr) :
    strContains
      (processUrl gerrit_url (get_commit_message_url gerrit_url change_id))
      (str "/a/changes/") = true := by
  have hu : strContains (get_commit_message_url gerrit_url change_id)
      (str "/changes/") = true := by
    unfold get_commit_message_url
    simp only [List.append_assoc]
    exact strContains_append_left gerrit_url (strContains_self_append _ _)
  unfold processUrl
  rw [if_pos hu]
  exact finalAuthFix_contains _ (reconstructChangesUrl_contains _ _ hu)

/-- C5 counterexample: at base `https://gerrit.example.com` and change id
`123456`, the request path actually sent for the commit-message endpoint is
`.../a/changes/123456/revisions/current/commit`, i.e. it does contain
`/a/changes/`, contradicting the claim that the auth segment is absent. -/
theorem C5_counterexample_auth_present :
    processUrl demoBase (get_commit_message_url demoBase (str "123456")) =
      str "https://gerrit.example.com/a/changes/123456/revisions/current/commit" ∧
    strContains
      (processUrl demoBase (get_commit_message_url demoBase (str "123456")))
      (str "/a/changes/") = true :=
  ⟨rfl, rfl⟩

/-- C6 (amended): re-normalizing a normalized path does not duplicate the
auth segment, and is a fixed point when the encoded identifier contains no
percent sign (e.g. a numeric id); but when the first pass percent-encoded a
character, the second pass re-encodes the percent sign (`foo+bar~123`
encodes to `foo%2Bbar~123`, which re-encodes to `foo%252Bbar~123`). -/
theorem C6_second_pass_behaviour :
    processUrl demoBase
        (processUrl demoBase (get_change_detail_url demoBase (str "123456"))) =
      processUrl demoBase (get_change_detail_url demoBase (str "123456")) ∧
    processUrl demoBase (get_change_detail_url demoBase (str "foo+bar~123")) =
      str "https://gerrit.example.com/a/changes/foo%2Bbar~123/detail" ∧
    processUrl demoBase
        (processUrl demoBase
          (get_change_detail_url demoBase (str "foo+bar~123"))) =
      str "https://gerrit.example.com/a/changes/foo%252Bbar~123/detail" :=
  ⟨rfl, rfl, rfl⟩

/-- C6 counterexample: for the change id `foo+bar~123` the second
application of the normalization differs from the first — idempotence
fails. -/
theorem C6_counterexample_not_idempotent :
    processUrl demoBase
        (processUrl demoBase
          (get_change_detail_url demoBase (str "foo+bar~123"))) ≠
      processUrl demoBase (get_change_detail_url demoBase (str "foo+bar~123")) := by
  decide

/-! ## The C7 claim -/

/-- C7: the executor classifies a 404 response as NotFound carrying the
requested path; any other status `>= 400` as ApiError carrying the status
and the raw body (e.g. 500 with body "boom"); a success body starting with
the magic prefix has exactly those 4 characters stripped before JSON
decoding, so the prefix followed by an ok-object decodes to that object;
and a body that is not valid JSON after stripping yields DecodeError
carrying the offending text. -/
theorem C7_response_classification :
    (∀ (url text : PyStr),
        handleResponse url 404 text = .error (.notFound url)) ∧
    (∀ (url text : PyStr) (status : Nat), 400 ≤ status → status ≠ 404 →
        handleResponse url status text = .error (.apiError status text)) ∧
    handleResponse (str "/a/changes/1/detail") 500 (str "boom") =
      .error (.apiError 500 (str "boom")) ∧
    (∀ rest : PyStr, parse_gerrit_response (magicPrefix ++ rest) =
        match jsonLoads (pyStrip rest) with
        | some v => .ok v
        | none => .error (.decodeError rest)) ∧
    handleResponse (str "p") 200 (magicPrefix ++ str "\n\x7b\"ok\":true\x7d") =
      .ok (.object [(str "ok", .bool true)]) ∧
    handleResponse (str "p") 200 (magicPrefix ++ str "boom") =
      .error (.decodeError (str "boom")) := by
  refine ⟨fun url text => rfl, ?_, rfl, ?_, rfl, rfl⟩
  · intro url text status h4 hne
    unfold handleResponse
    rw [if_neg (by simpa using hne), if_pos h4]
  · intro rest
    unfold parse_gerrit_response
    rw [if_pos (isPrefixOf_append_self magicPrefix rest)]
    rfl

theorem C7_witness :
    handleResponse (str "/a/x") 503 (str "unavailable") =
      .error (.apiError 503 (str "unavailable")) :=
  C7_response_classification.2.1 (str "/a/x") (str "unavailable") 503
    (by decide) (by decide)

/-! ## The C8 claim -/

/-- C8: a direct api-level call with `line = -1` omits the `line` field,
and `line = 7` yields `"line": 7`; but on the full tool path the façade
translates `-1` to Python `None` first, and `create_draft_comment`'s
`line != -1` test then succeeds, so the body sent for a file-level comment
DOES contain a `line` field (with value null), contradicting the claim for
the composed path. -/
theorem C8_line_field_on_tool_path :
    create_draft_comment_tool_body (str "f.py") (str "note") (-1) =
      .ok ⟨str "f.py", str "note", str "true", some none⟩ ∧
    (create_draft_comment_data (str "f.py") (str "note") (some (-1))).line =
      none ∧
    create_draft_comment_tool_body (str "f.py") (str "note") 7 =
      .ok ⟨str "f.py", str "note", str "true", some (some 7)⟩ :=
  ⟨rfl, rfl, rfl⟩

/-! ## The C9 claim -/

/-- C9 (amended): no part of the `get_commit_info` pipeline validates the
change identifier — for every base URL and change id, the empty string
included, the pipeline issues a network request and never fails with an
InvalidArgument error. -/
theorem C9_no_empty_id_validation (gerrit_url change_id : PyStr) :
    (∃ u, get_commit_info_attempt gerrit_url change_id =
        RequestAttempt.request u) ∧
    ∀ msg, get_commit_info_attempt gerrit_url change_id ≠
        RequestAttempt.invalidArgument msg :=
  ⟨⟨_, rfl⟩, fun _ h => RequestAttempt.noConfusion h⟩

/-- C9 counterexample: invoked with the empty change id, the
`get_commit_info` pipeline does not fail early: a network request is
attempted, at a URL whose change-id segment is simply empty. -/
theorem C9_counterexample_empty_id_request :
    get_commit_info_attempt demoBase (str "") =
      .request
        (str "https://gerrit.example.com/a/changes//revisions/current/commit") :=
  rfl

/-! ## The C10 claim -/

theorem eraseP_eq_filter_of_nodup_keys {α : Type} (k : PyStr) :
    ∀ l : List (PyStr × α), (l.map Prod.fst).Nodup →
      l.eraseP (fun p => p.1 == k) = l.filter (fun p => !(p.1 == k)) := by
  intro l
  induction l with
  | nil => intro _; rfl
  | cons p t ih =>
    intro hnd
    rw [List.map_cons, List.nodup_cons] at hnd
    rw [List.eraseP_cons, List.filter_cons]
    cases hk : (p.1 == k) with
    | true =>
      have hpk : p.1 = k := by simpa using hk
      simp only [hk, cond_true, Bool.not_true]
      rw [if_neg (by simp)]
      symm
      apply List.filter_eq_self.mpr
      intro q hq
      have hqk : q.1 ≠ k := by
        intro he
        have hmem : q.1 ∈ t.map Prod.fst := List.mem_map_of_mem Prod.fst hq
        rw [he, ← hpk] at hmem
        exact hnd.1 hmem
      simpa using hqk
    | false =>
      simp only [hk, cond_false, Bool.not_false]
      rw [if_pos trivial]
      rw [ih hnd.2]

/-- C10: on the success path, `get_file_list` returns a dictionary with
the single key `files` whose value is the remote file map with the
`/COMMIT_MSG` pseudo-entry removed and every other entry preserved
unchanged, in order. -/
theorem C10_file_list_filters_commit_msg {α : Type}
    (files_data : List (PyStr × α)) (hkeys : (files_data.map Prod.fst).Nodup) :
    (get_file_list_result files_data).files =
      files_data.filter (fun p => !(p.1 == str "/COMMIT_MSG")) :=
  eraseP_eq_filter_of_nodup_keys _ files_data hkeys

theorem C10_witness :
    (get_file_list_result
        [(str "/COMMIT_MSG", 0), (str "a.py", 1), (str "b.py", 2)]).files =
      [(str "/COMMIT_MSG", 0), (str "a.py", 1), (str "b.py", 2)].filter
        (fun p => !(p.1 == str "/COMMIT_MSG")) :=
  C10_file_list_filters_commit_msg _ (by decide)

end GerritMCP
